import Mathlib

/-!
Verification development for the silent-disco playlist application.

The repository's `src/` tree holds the React frontend (GuestPage, AdminPage,
SuccessOverlay).  The queue engine (RequestQueueEngine, CooldownTracker,
InFlightGuard) lives behind the HTTP API and is modelled here from the
specification; the client-side handlers (addTrack, skipQueue, moveToNext,
the auth-gated polling effects, the AdminPage init) are embedded directly
from the source files.
-/

namespace SilenceDisco

/-- A catalog track reference, as carried by search results and the queue:
`uri` (stable identifier), `name`, `artist`, `album_art`. -/
structure TrackRef where
  uri : String
  name : String
  artist : String
  album_art : String
  deriving Repr, DecidableEq

/-- Modelled from the spec: a `QueueEntry` of the RequestQueueEngine (the
engine itself is not under `src/`): the track, whether it was a guest
request, the priority flag, and the submission timestamp. -/
structure QueueEntry where
  track : TrackRef
  is_guest_request : Bool
  is_priority : Bool
  submitted_at : Nat
  deriving Repr, DecidableEq

/-- Modelled from the spec: the RequestQueueEngine state — the ordered list
of tracked entries, the InFlightGuard set of uris, and the CooldownTracker
records mapping a uri to its `last_played_at` timestamp. -/
structure EngineState where
  entries : List QueueEntry
  inFlight : List String
  cooldowns : List (String × Nat)
  deriving Repr, DecidableEq

/-- The engine state at startup: nothing tracked. -/
def engineInit : EngineState := ⟨[], [], []⟩

/-- Modelled from the spec: CooldownTracker lookup — at most one record per
uri, found by key. -/
def lookupCooldown (records : List (String × Nat)) (uri : String) : Option Nat :=
  (records.find? (fun r => r.1 == uri)).map (fun r => r.2)

/-- Modelled from the spec: `remaining(uri, now) = max(0, cooldown_window -
(now - last_played_at))`, zero when no record exists. -/
def remaining (window : Nat) (records : List (String × Nat)) (uri : String)
    (now : Nat) : Int :=
  match lookupCooldown records uri with
  | none => 0
  | some t => max 0 ((window : Int) - ((now : Int) - (t : Int)))

/-- Modelled from the spec: `is_in_cooldown(uri, now) = remaining(...) > 0`. -/
def is_in_cooldown (window : Nat) (records : List (String × Nat)) (uri : String)
    (now : Nat) : Bool :=
  decide (remaining window records uri now > 0)

/-- The error taxonomy of the mutating queue operations. -/
inductive AddError where
  | DuplicateInFlight
  | InCooldown
  | UpstreamRejected
  | NotFound
  deriving Repr, DecidableEq

/-- Modelled from the spec: `add_free(track)` — fails with `DuplicateInFlight`
if the uri is in InFlightGuard, then with `InCooldown` if the cooldown
tracker says so; on upstream success it records the uri in InFlightGuard and
appends a non-priority entry after the last non-priority entry (the end of
the list); on upstream failure the guard entry is rolled back and the call
fails with `UpstreamRejected`. -/
def add_free (window : Nat) (s : EngineState) (track : TrackRef) (now : Nat)
    (upstreamOk : Bool) : Except AddError EngineState :=
  if s.inFlight.contains track.uri then .error .DuplicateInFlight
  else if remaining window s.cooldowns track.uri now > 0 then .error .InCooldown
  else if upstreamOk then
    .ok { s with
      entries := s.entries ++ [⟨track, true, false, now⟩],
      inFlight := track.uri :: s.inFlight }
  else .error .UpstreamRejected

/-- Modelled from the spec: `add_priority(track)` — same guard and cooldown
checks; on success the new entry carries `is_priority = true` and is inserted
after any earlier priority entries and before all free entries. -/
def add_priority (window : Nat) (s : EngineState) (track : TrackRef) (now : Nat)
    (upstreamOk : Bool) : Except AddError EngineState :=
  if s.inFlight.contains track.uri then .error .DuplicateInFlight
  else if remaining window s.cooldowns track.uri now > 0 then .error .InCooldown
  else if upstreamOk then
    .ok { s with
      entries := s.entries.takeWhile (fun e => e.is_priority)
        ++ ⟨track, true, true, now⟩ :: s.entries.dropWhile (fun e => e.is_priority),
      inFlight := track.uri :: s.inFlight }
  else .error .UpstreamRejected

/-- Modelled from the spec: `promote_existing(uri)` — for a tracked entry,
reclassifies it `is_priority = true` and relocates it to index 0 of the
overall order; fails with `NotFound` when the uri is not tracked. -/
def promote_existing (s : EngineState) (uri : String) : Except AddError EngineState :=
  match s.entries.find? (fun e => e.track.uri == uri) with
  | none => .error .NotFound
  | some e =>
    .ok { s with
      entries := { e with is_priority := true }
        :: s.entries.eraseP (fun x => x.track.uri == uri) }

/-- The total step a caller sees for promotion: on failure the state is kept
unchanged. -/
def stepPromote (s : EngineState) (uri : String) : EngineState :=
  match promote_existing s uri with
  | .ok s' => s'
  | .error _ => s

/-- Modelled from the spec: `reset()` clears all tracked QueueEntry state and
InFlightGuard but never clears CooldownRecords. -/
def reset (s : EngineState) : EngineState :=
  { s with entries := [], inFlight := [] }

/-- Modelled from the spec: `list()` returns the ordered sequence of tracked
entries. -/
def listEntries (s : EngineState) : List QueueEntry := s.entries

/-- One guest submission in an interleaving: a free or a priority add, with
its timestamp and the upstream write's outcome. -/
inductive AddOp where
  | free (track : TrackRef) (now : Nat) (upstreamOk : Bool)
  | priority (track : TrackRef) (now : Nat) (upstreamOk : Bool)
  deriving Repr, DecidableEq

/-- Run one submission against the engine: the entry it created (if it
succeeded) and the resulting state (unchanged on failure). -/
def stepAddResult (window : Nat) (s : EngineState) :
    AddOp → Option QueueEntry × EngineState
  | .free t now ok =>
    match add_free window s t now ok with
    | .ok s' => (some ⟨t, true, false, now⟩, s')
    | .error _ => (none, s)
  | .priority t now ok =>
    match add_priority window s t now ok with
    | .ok s' => (some ⟨t, true, true, now⟩, s')
    | .error _ => (none, s)

/-- Run an interleaving of submissions against the engine. -/
def applyAdds (window : Nat) (s : EngineState) : List AddOp → EngineState
  | [] => s
  | op :: rest => applyAdds window (stepAddResult window s op).2 rest

/-- The entries created by the successful submissions of the given kind
(`true` = priority, `false` = free), in submission order. -/
def addedOfKind (window : Nat) (p : Bool) (s : EngineState) :
    List AddOp → List QueueEntry
  | [] => []
  | op :: rest =>
    let r := stepAddResult window s op
    (match r.1 with
     | some e => if e.is_priority == p then [e] else []
     | none => []) ++ addedOfKind window p r.2 rest

/-! ### Client-side models, embedded from `src/frontend` -/

/-- The fixed delay (milliseconds) after which `addTrack`'s finally block
deletes the uri from `addingRef` (`setTimeout(..., 2000)` in
`src/frontend/src/pages/GuestPage.js`). -/
def inFlightDelayMs : Nat := 2000

/-- Result of one run of the client `addTrack` handler: whether a request was
issued, and (when a submission ran to completion) the absolute time at which
the scheduled `addingRef.current.delete(track.uri)` fires. -/
structure AddRunResult where
  issuedRequest : Bool
  guardRemoveAt : Option Nat
  deriving Repr, DecidableEq

/-- From `addTrack` in `src/frontend/src/pages/GuestPage.js`: if the uri is
already in `addingRef` the handler returns without issuing any request;
otherwise it adds the uri, posts the add request, and — in the `finally`
block, so on success and on failure alike — schedules removal of the uri
`inFlightDelayMs` after the submission completes at `completedAt`. -/
def addTrackClient (addingSet : List String) (uri : String) (completedAt : Nat)
    (_success : Bool) : AddRunResult × List String :=
  if addingSet.contains uri then (⟨false, none⟩, addingSet)
  else (⟨true, some (completedAt + inFlightDelayMs)⟩, uri :: addingSet)

/-- From the scheduled callback in `addTrack`'s finally block:
`addingRef.current.delete(track.uri)` removes the uri from the set. -/
def deleteGuard (addingSet : List String) (uri : String) : List String :=
  addingSet.filter (fun u => u != uri)

/-- A now-playing snapshot as the guest page stores it. -/
structure NowPlayingData where
  is_playing : Bool
  song_name : String
  artist : String
  progress_ms : Nat
  duration_ms : Nat
  time_left_ms : Nat
  deriving Repr, DecidableEq

/-- From `fetchNowPlaying` in `src/frontend/src/pages/GuestPage.js`: on a
successful poll the stored snapshot is replaced wholesale; on a failed poll
the catch block only logs, leaving the previously stored snapshot in place. -/
def fetchNowPlaying (prev : Option NowPlayingData)
    (result : Except Unit NowPlayingData) : Option NowPlayingData :=
  match result with
  | .ok d => some d
  | .error _ => prev

/-- What a polling useEffect of the guest page produces: the requests fired
immediately on mount and the interval period registered (none when no
interval is created). -/
structure EffectResult where
  immediateRequests : List String
  intervalMs : Option Nat
  deriving Repr, DecidableEq

/-- From the now-playing useEffect in `src/frontend/src/pages/GuestPage.js`:
only when `isAuthenticated` does it fetch and register a 2000 ms interval. -/
def nowPlayingEffect (isAuthenticated : Bool) : EffectResult :=
  if isAuthenticated then ⟨["GET /api/spotify/now-playing"], some 2000⟩
  else ⟨[], none⟩

/-- From the queue useEffect in `src/frontend/src/pages/GuestPage.js`: only
when `isAuthenticated` does it fetch and register a 3000 ms interval. -/
def queueEffect (isAuthenticated : Bool) : EffectResult :=
  if isAuthenticated then ⟨["GET /api/spotify/queue"], some 3000⟩
  else ⟨[], none⟩

/-- All requests an effect issues over `ticks` timer firings: the immediate
fetch plus one repetition per tick when an interval was registered. -/
def requestsOver (eff : EffectResult) (ticks : Nat) : List String :=
  eff.immediateRequests ++
    match eff.intervalMs with
    | none => []
    | some _ => (List.replicate ticks eff.immediateRequests).flatten

/-- From `checkAuth` in `src/frontend/src/pages/GuestPage.js`: the page's
`isAuthenticated` state after the status endpoint responds is exactly the
reported `authenticated` flag (initial state `false` is overwritten). -/
def checkAuthResult (statusAuthenticated : Bool) : Bool := statusAuthenticated

/-- The two top-level renderings of the guest page. -/
inductive GuestView where
  | waiting
  | main
  deriving Repr, DecidableEq

/-- From `src/frontend/src/pages/GuestPage.js`: when not authenticated the
component returns the waiting-for-connection card before any playback UI. -/
def guestRender (isAuthenticated : Bool) : GuestView :=
  if isAuthenticated then .main else .waiting

/-- The body posted to the priority endpoints (`skip-paid`, `move-to-next`)
by `src/frontend/src/App.js`. -/
structure PriorityRequest where
  track_uri : String
  track_name : String
  artist : String
  album_art : String
  deriving Repr, DecidableEq

/-- Possible outcomes of the payment-link visit, none of which the client
ever observes. -/
inductive PaymentOutcome where
  | completed
  | cancelled
  | ignored
  deriving Repr, DecidableEq

/-- Observable actions a handler performs. -/
inductive ClientAction where
  | openWindow (url : String)
  | post (endpoint : String) (body : PriorityRequest)
  deriving Repr, DecidableEq

/-- From `skipQueue` in `src/frontend/src/App.js`: opens the payment link,
then unconditionally posts the priority request; the payment outcome is
never consulted. -/
def skipQueueActions (squareLink : String) (track : TrackRef)
    (_outcome : PaymentOutcome) : List ClientAction :=
  [.openWindow squareLink,
   .post "/api/spotify/skip-paid" ⟨track.uri, track.name, track.artist, track.album_art⟩]

/-- From `moveToNext` in `src/frontend/src/App.js`: opens the payment link,
then unconditionally posts the move-to-next request; the payment outcome is
never consulted. -/
def moveToNextActions (squareLink : String) (track : TrackRef)
    (_outcome : PaymentOutcome) : List ClientAction :=
  [.openWindow squareLink,
   .post "/api/spotify/move-to-next" ⟨track.uri, track.name, track.artist, track.album_art⟩]

/-- What the AdminPage mount effect decides: the resulting `isAuthenticated`
and `loading` state, and whether the status endpoint was called. -/
structure AdminInitResult where
  isAuthenticated : Bool
  loading : Bool
  calledStatusEndpoint : Bool
  deriving Repr, DecidableEq

/-- Lookup of a URL query parameter, as `URLSearchParams.get` does. -/
def queryGet (query : List (String × String)) (key : String) : Option String :=
  (query.find? (fun kv => kv.1 == key)).map (fun kv => kv.2)

/-- From the AdminPage mount effect in `src/frontend/src/App.js`: when the
URL query has `auth=success` the page sets `isAuthenticated` to `true` and
stops loading without calling the status endpoint; otherwise it calls
`/spotify/status` and adopts the reported flag. -/
def adminInitEffect (query : List (String × String)) (statusAuthenticated : Bool) :
    AdminInitResult :=
  if queryGet query "auth" == some "success" then ⟨true, false, false⟩
  else ⟨statusAuthenticated, false, true⟩

/-- The three top-level renderings of the admin page. -/
inductive AdminView where
  | loadingView
  | connected
  | connectPrompt
  deriving Repr, DecidableEq

/-- From `src/frontend/src/App.js`: the AdminPage renders the loading screen
while loading, then the connected panel or the connect prompt by
`isAuthenticated`. -/
def adminRender (loading : Bool) (isAuthenticated : Bool) : AdminView :=
  if loading then .loadingView
  else if isAuthenticated then .connected
  else .connectPrompt

/-! ### Ordering lemmas for the engine -/

/-- Splitting a partitioned list at the priority boundary. -/
lemma takeWhile_dropWhile_partition (P F : List QueueEntry)
    (hF : ∀ e ∈ F, e.is_priority = false) :
    (∀ e ∈ P, e.is_priority = true) →
    (P ++ F).takeWhile (fun e => e.is_priority) = P ∧
    (P ++ F).dropWhile (fun e => e.is_priority) = F := by
  induction P with
  | nil =>
    intro _
    cases F with
    | nil => simp
    | cons f fs =>
      have hf : f.is_priority = false := hF f (by simp)
      simp [List.takeWhile_cons, List.dropWhile_cons, hf]
  | cons a P ih =>
    intro hP
    have ha : a.is_priority = true := hP a (by simp)
    have ih' := ih (fun e he => hP e (by simp [he]))
    simp [List.takeWhile_cons, List.dropWhile_cons, ha, ih'.1, ih'.2]

/-- Running an interleaving of adds over a partitioned state appends the
successful priority submissions to the priority partition and the successful
free submissions to the free partition, in submission order. -/
lemma applyAdds_entries (window : Nat) (ops : List AddOp) :
    ∀ (s : EngineState) (P F : List QueueEntry),
      s.entries = P ++ F →
      (∀ e ∈ P, e.is_priority = true) → (∀ e ∈ F, e.is_priority = false) →
      (applyAdds window s ops).entries
        = (P ++ addedOfKind window true s ops)
          ++ (F ++ addedOfKind window false s ops) := by
  induction ops with
  | nil =>
    intro s P F hs _ _
    simpa [applyAdds, addedOfKind] using hs
  | cons op rest ih =>
    intro s P F hs hP hF
    cases op with
    | free t now ok =>
      by_cases h1 : t.uri ∈ s.inFlight
      · have hstep : stepAddResult window s (.free t now ok) = (none, s) := by
          simp [stepAddResult, add_free, h1]
        simp only [applyAdds, addedOfKind, hstep]
        simpa using ih s P F hs hP hF
      · by_cases h2 : (0 : Int) < remaining window s.cooldowns t.uri now
        · have hstep : stepAddResult window s (.free t now ok) = (none, s) := by
            simp [stepAddResult, add_free, h1, h2]
          simp only [applyAdds, addedOfKind, hstep]
          simpa using ih s P F hs hP hF
        · cases ok with
          | false =>
            have hstep : stepAddResult window s (.free t now false) = (none, s) := by
              simp [stepAddResult, add_free, h1, h2]
            simp only [applyAdds, addedOfKind, hstep]
            simpa using ih s P F hs hP hF
          | true =>
            have hstep : stepAddResult window s (.free t now true)
                = (some ⟨t, true, false, now⟩,
                   { s with entries := s.entries ++ [⟨t, true, false, now⟩],
                            inFlight := t.uri :: s.inFlight }) := by
              simp [stepAddResult, add_free, h1, h2]
            simp only [applyAdds, addedOfKind, hstep]
            have hF' : ∀ e ∈ F ++ [(⟨t, true, false, now⟩ : QueueEntry)],
                e.is_priority = false := by
              intro e he
              rcases List.mem_append.mp he with h | h
              · exact hF e h
              · simp at h; subst h; rfl
            have := ih { s with entries := s.entries ++ [⟨t, true, false, now⟩],
                                inFlight := t.uri :: s.inFlight }
              P (F ++ [⟨t, true, false, now⟩]) (by simp [hs]) hP hF'
            simpa [List.append_assoc] using this
    | priority t now ok =>
      by_cases h1 : t.uri ∈ s.inFlight
      · have hstep : stepAddResult window s (.priority t now ok) = (none, s) := by
          simp [stepAddResult, add_priority, h1]
        simp only [applyAdds, addedOfKind, hstep]
        simpa using ih s P F hs hP hF
      · by_cases h2 : (0 : Int) < remaining window s.cooldowns t.uri now
        · have hstep : stepAddResult window s (.priority t now ok) = (none, s) := by
            simp [stepAddResult, add_priority, h1, h2]
          simp only [applyAdds, addedOfKind, hstep]
          simpa using ih s P F hs hP hF
        · cases ok with
          | false =>
            have hstep : stepAddResult window s (.priority t now false) = (none, s) := by
              simp [stepAddResult, add_priority, h1, h2]
            simp only [applyAdds, addedOfKind, hstep]
            simpa using ih s P F hs hP hF
          | true =>
            have hsplit := takeWhile_dropWhile_partition P F hF hP
            have hentries :
                s.entries.takeWhile (fun e => e.is_priority)
                  ++ (⟨t, true, true, now⟩ : QueueEntry)
                    :: s.entries.dropWhile (fun e => e.is_priority)
                = (P ++ [⟨t, true, true, now⟩]) ++ F := by
              rw [hs, hsplit.1, hsplit.2]; simp
            have hstep : stepAddResult window s (.priority t now true)
                = (some ⟨t, true, true, now⟩,
                   { s with entries := (P ++ [⟨t, true, true, now⟩]) ++ F,
                            inFlight := t.uri :: s.inFlight }) := by
              simp [stepAddResult, add_priority, h1, h2, hentries]
            simp only [applyAdds, addedOfKind, hstep]
            have hP' : ∀ e ∈ P ++ [(⟨t, true, true, now⟩ : QueueEntry)],
                e.is_priority = true := by
              intro e he
              rcases List.mem_append.mp he with h | h
              · exact hP e h
              · simp at h; subst h; rfl
            have := ih { s with entries := (P ++ [⟨t, true, true, now⟩]) ++ F,
                                inFlight := t.uri :: s.inFlight }
              (P ++ [⟨t, true, true, now⟩]) F rfl hP' hF
            simpa [List.append_assoc] using this

/-- Every entry collected by `addedOfKind` carries the requested priority
flag. -/
lemma addedOfKind_flag (window : Nat) (p : Bool) (ops : List AddOp) :
    ∀ s : EngineState, ∀ e ∈ addedOfKind window p s ops, e.is_priority = p := by
  induction ops with
  | nil => intro s e he; simp [addedOfKind] at he
  | cons op rest ih =>
    intro s e he
    simp only [addedOfKind] at he
    rcases List.mem_append.mp he with h | h
    · rcases hm : (stepAddResult window s op).1 with _ | e'
      · simp [hm] at h
      · by_cases hp : e'.is_priority == p
        · simp only [hm, hp, if_true, List.mem_singleton] at h
          subst h; exact beq_iff_eq.mp hp
        · simp [hm, hp] at h
    · exact ih (stepAddResult window s op).2 e h

/-- After the scheduled delete fires, the uri is gone from the guard set. -/
lemma deleteGuard_not_mem (l : List String) (uri : String) :
    uri ∉ deleteGuard l uri := by
  simp [deleteGuard]

/-! ### Claim theorems -/

/-- Concrete submissions used to exercise the engine at a concrete input. -/
def sampleOps : List AddOp :=
  [.free ⟨"a", "A", "Ar", ""⟩ 0 true,
   .priority ⟨"b", "B", "Br", ""⟩ 1 true,
   .free ⟨"c", "C", "Cr", ""⟩ 2 true,
   .priority ⟨"d", "D", "Dr", ""⟩ 3 true]

/-- Concrete tracked state: one priority entry ahead of one free entry. -/
def sampleState : EngineState :=
  ⟨[⟨⟨"p1", "P", "ArtistP", ""⟩, true, true, 0⟩,
    ⟨⟨"x", "X", "ArtistX", ""⟩, true, false, 1⟩], [], []⟩

/-- C1: for every interleaving of `add_free` and `add_priority` submissions
run from the initial engine state, `list()` places every priority entry
before every free entry, and within each partition entries appear in
submission order: the returned sequence is exactly the successful priority
submissions in order followed by the successful free submissions in order. -/
theorem C1_priority_before_free_fifo (window : Nat) (ops : List AddOp) :
    listEntries (applyAdds window engineInit ops)
      = addedOfKind window true engineInit ops
        ++ addedOfKind window false engineInit ops
    ∧ (∀ e ∈ addedOfKind window true engineInit ops, e.is_priority = true)
    ∧ (∀ e ∈ addedOfKind window false engineInit ops, e.is_priority = false) := by
  refine ⟨?_, addedOfKind_flag window true ops engineInit,
    addedOfKind_flag window false ops engineInit⟩
  have h := applyAdds_entries window ops engineInit [] []
    rfl (by simp) (by simp)
  simpa [listEntries] using h

/-- Instantiation of `C1_priority_before_free_fifo` on a concrete
interleaving free, priority, free, priority: both priority entries come
first, each partition in submission order. -/
theorem C1_priority_before_free_fifo_witness :
    (listEntries (applyAdds 60 engineInit sampleOps)
       = addedOfKind 60 true engineInit sampleOps
         ++ addedOfKind 60 false engineInit sampleOps)
    ∧ listEntries (applyAdds 60 engineInit sampleOps)
       = [⟨⟨"b", "B", "Br", ""⟩, true, true, 1⟩,
          ⟨⟨"d", "D", "Dr", ""⟩, true, true, 3⟩,
          ⟨⟨"a", "A", "Ar", ""⟩, true, false, 0⟩,
          ⟨⟨"c", "C", "Cr", ""⟩, true, false, 2⟩] :=
  ⟨(C1_priority_before_free_fifo 60 sampleOps).1, by decide⟩

/-- C2: with the uri not yet guarded and not in cooldown, the first
submission succeeds and creates exactly one new entry, while a second
submission for the same uri within the guard window fails with
`DuplicateInFlight` (through either add path) and creates nothing; on the
client, `addTrack` for a uri already in the in-flight set returns without
issuing any request and without touching the set. -/
theorem C2_duplicate_in_flight_guard (window : Nat) (s : EngineState)
    (t : TrackRef) (n1 n2 : Nat) (ok2 : Bool) (addingSet : List String)
    (hguard : t.uri ∉ s.inFlight)
    (hcool : ¬ (0 : Int) < remaining window s.cooldowns t.uri n1) :
    (∃ s', add_free window s t n1 true = .ok s'
        ∧ s'.entries = s.entries ++ [⟨t, true, false, n1⟩]
        ∧ add_free window s' t n2 ok2 = .error .DuplicateInFlight
        ∧ add_priority window s' t n2 ok2 = .error .DuplicateInFlight)
    ∧ (addingSet.contains t.uri = true →
        (addTrackClient addingSet t.uri n2 true).1.issuedRequest = false
        ∧ (addTrackClient addingSet t.uri n2 true).2 = addingSet) := by
  constructor
  · have h1 : add_free window s t n1 true = .ok
        { s with entries := s.entries ++ [⟨t, true, false, n1⟩],
                 inFlight := t.uri :: s.inFlight } := by
      simp [add_free, hguard, hcool]
    refine ⟨_, h1, rfl, ?_, ?_⟩
    · simp [add_free]
    · simp [add_priority]
  · intro hmem
    have hmem' : t.uri ∈ addingSet := by simpa using hmem
    constructor <;> simp [addTrackClient, hmem']

/-- Instantiation of `C2_duplicate_in_flight_guard`: uri `u1`, empty initial
state, second submit while `u1` is still guarded. -/
theorem C2_duplicate_in_flight_guard_witness :
    (("u1" : String) ∉ engineInit.inFlight
      ∧ ¬ (0 : Int) < remaining 60 engineInit.cooldowns "u1" 0)
    ∧ ((∃ s', add_free 60 engineInit ⟨"u1", "N", "A", ""⟩ 0 true = .ok s'
          ∧ s'.entries = engineInit.entries
              ++ [⟨⟨"u1", "N", "A", ""⟩, true, false, 0⟩]
          ∧ add_free 60 s' ⟨"u1", "N", "A", ""⟩ 1 true
              = .error .DuplicateInFlight
          ∧ add_priority 60 s' ⟨"u1", "N", "A", ""⟩ 1 true
              = .error .DuplicateInFlight)
      ∧ ((["u1"] : List String).contains "u1" = true →
          (addTrackClient ["u1"] "u1" 1 true).1.issuedRequest = false
          ∧ (addTrackClient ["u1"] "u1" 1 true).2 = ["u1"])) :=
  ⟨⟨by decide, by decide⟩,
   C2_duplicate_in_flight_guard 60 engineInit ⟨"u1", "N", "A", ""⟩ 0 1 true
     ["u1"] (by decide) (by decide)⟩

/-- C3: after a completed add submission — success or failure alike — the
client's guard entry for the uri is scheduled for removal exactly
`inFlightDelayMs = 2000` ms after completion: never immediately (removal is
strictly later than completion), never retained indefinitely (once the
scheduled delete has fired, a later re-request of the same uri issues a
request again), and the scheduling is identical for both outcomes. -/
theorem C3_guard_removed_after_fixed_delay (addingSet : List String)
    (uri : String) (tDone tLater : Nat) (success : Bool)
    (hnew : uri ∉ addingSet) :
    (addTrackClient addingSet uri tDone success).1.guardRemoveAt
        = some (tDone + 2000)
    ∧ (∀ rt, (addTrackClient addingSet uri tDone success).1.guardRemoveAt
        = some rt → tDone < rt)
    ∧ addTrackClient addingSet uri tDone success
        = addTrackClient addingSet uri tDone (!success)
    ∧ (addTrackClient
        (deleteGuard (addTrackClient addingSet uri tDone success).2 uri)
        uri tLater true).1.issuedRequest = true := by
  have hset : (addTrackClient addingSet uri tDone success).2 = uri :: addingSet := by
    simp [addTrackClient, hnew]
  refine ⟨by simp [addTrackClient, hnew, inFlightDelayMs], ?_, ?_, ?_⟩
  · intro rt hrt
    simp [addTrackClient, hnew, inFlightDelayMs] at hrt
    omega
  · rfl
  · rw [hset]
    have hgone := deleteGuard_not_mem (uri :: addingSet) uri
    simp [addTrackClient, hgone]

/-- Instantiation of `C3_guard_removed_after_fixed_delay`: uri `u2`
completing at 5 ms, re-requested later. -/
theorem C3_guard_removed_after_fixed_delay_witness :
    (("u2" : String) ∉ ([] : List String))
    ∧ ((addTrackClient [] "u2" 5 true).1.guardRemoveAt = some (5 + 2000)
      ∧ (∀ rt, (addTrackClient [] "u2" 5 true).1.guardRemoveAt = some rt →
          5 < rt)
      ∧ addTrackClient [] "u2" 5 true = addTrackClient [] "u2" 5 (!true)
      ∧ (addTrackClient (deleteGuard (addTrackClient [] "u2" 5 true).2 "u2")
          "u2" 9000 true).1.issuedRequest = true) :=
  ⟨by decide, C3_guard_removed_after_fixed_delay [] "u2" 5 9000 true (by decide)⟩

/-- C4 counterexample: with `trackA` both in the in-flight guard and inside
the cooldown window, `add_free` fails with `DuplicateInFlight`, not
`InCooldown`, even though `remaining > 0` — so the unconditional
"fails with InCooldown exactly when remaining > 0" is false. -/
theorem C4_incooldown_iff_counterexample :
    (0 : Int) < remaining 3600000 [("trackA", 0)] "trackA" 1000
    ∧ add_free 3600000 ⟨[], ["trackA"], [("trackA", 0)]⟩
        ⟨"trackA", "A", "Art", ""⟩ 1000 true = .error .DuplicateInFlight
    ∧ add_free 3600000 ⟨[], ["trackA"], [("trackA", 0)]⟩
        ⟨"trackA", "A", "Art", ""⟩ 1000 true ≠ .error .InCooldown := by
  have h : add_free 3600000 ⟨[], ["trackA"], [("trackA", 0)]⟩
      ⟨"trackA", "A", "Art", ""⟩ 1000 true = .error .DuplicateInFlight := by
    rfl
  refine ⟨by decide, h, ?_⟩
  rw [h]
  simp

/-- C4 (amended): provided the uri is not in the in-flight guard, `add_free`
fails with `InCooldown` exactly when `remaining(uri, now) > 0`; and once the
cooldown window has elapsed since `last_played_at` with no further play,
`remaining` is zero and the same track is no longer rejected for cooldown. -/
theorem C4_incooldown_iff_not_guarded (window : Nat) (s : EngineState)
    (t : TrackRef) (now : Nat) (ok : Bool) (hguard : t.uri ∉ s.inFlight) :
    (add_free window s t now ok = .error .InCooldown
      ↔ (0 : Int) < remaining window s.cooldowns t.uri now)
    ∧ (∀ last, lookupCooldown s.cooldowns t.uri = some last →
        last + window ≤ now →
        remaining window s.cooldowns t.uri now = 0
        ∧ add_free window s t now ok ≠ .error .InCooldown) := by
  have hiff : add_free window s t now ok = .error .InCooldown
      ↔ (0 : Int) < remaining window s.cooldowns t.uri now := by
    by_cases h2 : (0 : Int) < remaining window s.cooldowns t.uri now
    · simp [add_free, hguard, h2]
    · cases ok <;> simp [add_free, hguard, h2]
  refine ⟨hiff, ?_⟩
  intro last hlast hel
  have hle : (window : Int) - ((now : Int) - (last : Int)) ≤ 0 := by
    have : (last : Int) + window ≤ now := by exact_mod_cast hel
    omega
  have hrem : remaining window s.cooldowns t.uri now = 0 := by
    simp [remaining, hlast, max_eq_left hle]
  refine ⟨hrem, ?_⟩
  intro hbad
  have := hiff.mp hbad
  rw [hrem] at this
  exact absurd this (by norm_num)

/-- Instantiation of `C4_incooldown_iff_not_guarded`: track `u3` last played
at 0, window 60, queried at 60 — cooldown over, no InCooldown failure. -/
theorem C4_incooldown_iff_not_guarded_witness :
    (("u3" : String) ∉ (⟨[], [], [("u3", 0)]⟩ : EngineState).inFlight)
    ∧ ((add_free 60 ⟨[], [], [("u3", 0)]⟩ ⟨"u3", "N", "A", ""⟩ 60 true
          = .error .InCooldown
        ↔ (0 : Int) < remaining 60 [("u3", 0)] "u3" 60)
      ∧ (∀ last, lookupCooldown [("u3", 0)] "u3" = some last →
          last + 60 ≤ 60 →
          remaining 60 [("u3", 0)] "u3" 60 = 0
          ∧ add_free 60 ⟨[], [], [("u3", 0)]⟩ ⟨"u3", "N", "A", ""⟩ 60 true
              ≠ .error .InCooldown)) :=
  ⟨by decide,
   C4_incooldown_iff_not_guarded 60 ⟨[], [], [("u3", 0)]⟩
     ⟨"u3", "N", "A", ""⟩ 60 true (by decide)⟩

/-- C5: when the uri is tracked, `promote_existing` succeeds and the next
`list()` has, at index 0, the entry for exactly that uri with
`is_priority = true` — whatever its prior position, even behind earlier
priority entries; when the uri is not tracked it fails with `NotFound` and
the queue is left unchanged. -/
theorem C5_promote_existing_to_front (s : EngineState) (uri : String) :
    (∀ e, s.entries.find? (fun x => x.track.uri == uri) = some e →
      ∃ s', promote_existing s uri = .ok s'
        ∧ (listEntries (stepPromote s uri)).head?
            = some { e with is_priority := true }
        ∧ ∀ e', (listEntries (stepPromote s uri)).head? = some e' →
            e'.track.uri = uri ∧ e'.is_priority = true)
    ∧ (s.entries.find? (fun x => x.track.uri == uri) = none →
      promote_existing s uri = .error .NotFound ∧ stepPromote s uri = s) := by
  constructor
  · intro e hfind
    have hpe : promote_existing s uri = .ok
        { s with entries := { e with is_priority := true }
            :: s.entries.eraseP (fun x => x.track.uri == uri) } := by
      simp [promote_existing, hfind]
    have huri : e.track.uri = uri := by
      have := List.find?_some hfind
      exact beq_iff_eq.mp this
    refine ⟨_, hpe, ?_, ?_⟩
    · simp [stepPromote, hpe, listEntries]
    · intro e' he'
      simp [stepPromote, hpe, listEntries] at he'
      subst he'
      exact ⟨huri, rfl⟩
  · intro hfind
    have hpe : promote_existing s uri = .error .NotFound := by
      simp [promote_existing, hfind]
    exact ⟨hpe, by simp [stepPromote, hpe]⟩

/-- Instantiation of `C5_promote_existing_to_front`: promoting the free
entry `x` that sits behind a priority entry moves it to index 0; promoting
the absent uri `zz` fails with `NotFound` and changes nothing. -/
theorem C5_promote_existing_to_front_witness :
    (sampleState.entries.find? (fun x => x.track.uri == "x")
        = some ⟨⟨"x", "X", "ArtistX", ""⟩, true, false, 1⟩
      ∧ sampleState.entries.find? (fun x => x.track.uri == "zz") = none)
    ∧ (∃ s', promote_existing sampleState "x" = .ok s'
        ∧ (listEntries (stepPromote sampleState "x")).head?
            = some ⟨⟨"x", "X", "ArtistX", ""⟩, true, true, 1⟩
        ∧ ∀ e', (listEntries (stepPromote sampleState "x")).head? = some e' →
            e'.track.uri = "x" ∧ e'.is_priority = true)
    ∧ (promote_existing sampleState "zz" = .error .NotFound
        ∧ stepPromote sampleState "zz" = sampleState) :=
  ⟨⟨by decide, by decide⟩,
   (C5_promote_existing_to_front sampleState "x").1
     ⟨⟨"x", "X", "ArtistX", ""⟩, true, false, 1⟩ (by decide),
   (C5_promote_existing_to_front sampleState "zz").2 (by decide)⟩

/-- C6: `reset()` clears all tracked entries and the in-flight guard but
leaves the cooldown records byte-for-byte intact, so `is_in_cooldown` gives
the same answer before and after a reset. -/
theorem C6_reset_keeps_cooldowns (window : Nat) (s : EngineState)
    (uri : String) (now : Nat) :
    (reset s).entries = [] ∧ (reset s).inFlight = []
    ∧ (reset s).cooldowns = s.cooldowns
    ∧ is_in_cooldown window (reset s).cooldowns uri now
        = is_in_cooldown window s.cooldowns uri now :=
  ⟨rfl, rfl, rfl, rfl⟩

/-- C7: a failed now-playing poll leaves the stored snapshot exactly as it
was — it is never cleared — while a successful poll replaces it wholesale;
so after any single failed cycle a read still returns the last successfully
committed snapshot. -/
theorem C7_stale_snapshot_on_failed_poll (prev : Option NowPlayingData)
    (d : NowPlayingData) :
    fetchNowPlaying prev (.error ()) = prev
    ∧ fetchNowPlaying (some d) (.error ()) = some d
    ∧ fetchNowPlaying prev (.ok d) = some d :=
  ⟨rfl, rfl, rfl⟩

/-- C8: the priority request the client sends is identical whatever the
payment outcome — for both `skipQueue` and `moveToNext` the whole action
sequence, including the posted body, is independent of the payment result,
and the priority post is always issued after opening the payment link. -/
theorem C8_payment_never_verified (link : String) (t : TrackRef)
    (o1 o2 : PaymentOutcome) :
    skipQueueActions link t o1 = skipQueueActions link t o2
    ∧ moveToNextActions link t o1 = moveToNextActions link t o2
    ∧ ClientAction.post "/api/spotify/skip-paid"
        ⟨t.uri, t.name, t.artist, t.album_art⟩ ∈ skipQueueActions link t o1
    ∧ ClientAction.post "/api/spotify/move-to-next"
        ⟨t.uri, t.name, t.artist, t.album_art⟩ ∈ moveToNextActions link t o1 :=
  ⟨rfl, rfl, by simp [skipQueueActions], by simp [moveToNextActions]⟩

/-- C9: when the status endpoint reports `authenticated = false`, the guest
page registers no polling interval, issues no now-playing or queue request
over any number of timer ticks, and renders the waiting-for-connection
view. -/
theorem C9_unauthenticated_never_polls (n : Nat) :
    (nowPlayingEffect (checkAuthResult false)).intervalMs = none
    ∧ (queueEffect (checkAuthResult false)).intervalMs = none
    ∧ requestsOver (nowPlayingEffect (checkAuthResult false)) n = []
    ∧ requestsOver (queueEffect (checkAuthResult false)) n = []
    ∧ guestRender (checkAuthResult false) = .waiting := by
  refine ⟨rfl, rfl, ?_, ?_, rfl⟩ <;>
    simp [requestsOver, nowPlayingEffect, queueEffect, checkAuthResult]

/-- C10: a load of the admin page whose query string carries `auth=success`
sets `isAuthenticated` to `true` and renders the connected view without
calling the status endpoint, whatever the status endpoint would have
answered; when the parameter does not carry `success`, the status endpoint
is consulted and its answer adopted. -/
theorem C10_admin_auth_param_bypasses_status (query : List (String × String))
    (statusAuth : Bool) :
    (queryGet query "auth" = some "success" →
      adminInitEffect query statusAuth = ⟨true, false, false⟩
      ∧ adminRender (adminInitEffect query statusAuth).loading
          (adminInitEffect query statusAuth).isAuthenticated = .connected)
    ∧ (queryGet query "auth" ≠ some "success" →
      (adminInitEffect query statusAuth).calledStatusEndpoint = true
      ∧ (adminInitEffect query statusAuth).isAuthenticated = statusAuth) := by
  constructor
  · intro h
    constructor <;> simp [adminInitEffect, adminRender, h]
  · intro h
    constructor <;> simp [adminInitEffect, adminRender, h]

/-- Instantiation of `C10_admin_auth_param_bypasses_status`: with
`?auth=success` and a status endpoint that would answer `false`, the page
still shows the connected view without calling status; with no parameters,
status is consulted. -/
theorem C10_admin_auth_param_bypasses_status_witness :
    (adminInitEffect [("auth", "success")] false = ⟨true, false, false⟩
      ∧ adminRender (adminInitEffect [("auth", "success")] false).loading
          (adminInitEffect [("auth", "success")] false).isAuthenticated
          = .connected)
    ∧ ((adminInitEffect [] false).calledStatusEndpoint = true
      ∧ (adminInitEffect [] false).isAuthenticated = false) :=
  ⟨(C10_admin_auth_param_bypasses_status [("auth", "success")] false).1
     (by decide),
   (C10_admin_auth_param_bypasses_status [] false).2 (by decide)⟩

end SilenceDisco
